import Mathlib

/-!
Verification of the BullyBuddy session supervisor core against its
natural-language specification.

The definitions below are a shallow embedding of the TypeScript sources:
  * `src/server/index.ts` (StateDetector half) — `DetailedState`, `stripAnsi`,
    `lastMatchIndex`, `PATTERNS`, `StateDetector.feed`;
  * `src/server/shared.ts` — `ALLOWED_FLAGS`, `isAllowedArg`,
    `DEFAULT_SKIP_PERMISSIONS`;
  * `src/server/session-manager.ts` — `SessionManager` (spawn naming,
    skip-permissions argv handling, scrollback eviction, write, kill, resize,
    setTask, getters);
  * `src/server/ws-bridge.ts` — the subscribe / output fan-out path.

JavaScript strings are modelled as `List Char` (code points; all characters
appearing in the sources and claims are in the Basic Multilingual Plane, where
UTF-16 code units and code points coincide).  Byte counts (`Buffer.byteLength`)
are modelled by UTF-8 byte size.  Loops are written with an explicit fuel
argument that is initialised to a bound the loop provably never exceeds (each
iteration advances at least one position / removes at least one element), so
that every definition reduces by kernel evaluation.
-/

namespace BB

/-- The six detector states, from `src/server/index.ts` (`DetailedState`). -/
inductive DetailedState where
  | starting
  | idle
  | working
  | permission_needed
  | compacting
  | error
deriving DecidableEq, Repr

/-! ### Character classes used by the regular expressions

`isJsSpace` is JavaScript's `\s` class, `isWordChar` the `\w` class used by
`\b`, `isLineTerm` the line terminators recognised by the `m` flag and
excluded by `.`. -/

def isJsSpace (c : Char) : Bool :=
  c = ' ' || c = '\t' || c = '\n' || c.val = 11 || c.val = 12 || c = '\r' ||
  c.val = 0xa0 || c.val = 0x1680 || (0x2000 ≤ c.val && c.val ≤ 0x200a) ||
  c.val = 0x2028 || c.val = 0x2029 || c.val = 0x202f || c.val = 0x205f ||
  c.val = 0x3000 || c.val = 0xfeff

def isWordChar (c : Char) : Bool :=
  (('a' ≤ c && c ≤ 'z') || ('A' ≤ c && c ≤ 'Z') || ('0' ≤ c && c ≤ '9') || c = '_')

def isLineTerm (c : Char) : Bool :=
  c = '\n' || c = '\r' || c.val = 0x2028 || c.val = 0x2029

/-- JavaScript `.` (without the `s` flag): any character except a line
terminator. -/
def isDotChar (c : Char) : Bool := !isLineTerm c

def isDigitSemi (c : Char) : Bool := ('0' ≤ c && c ≤ '9') || c = ';'

def isAsciiLetter (c : Char) : Bool :=
  ('A' ≤ c && c ≤ 'Z') || ('a' ≤ c && c ≤ 'z')

/-! ### A small backtracking regular-expression engine

Sufficient for every regular expression appearing in the sources.  `ends r s i`
returns the list of possible match end positions for `r` matching in string `s`
at position `i`, in JavaScript backtracking preference order (greedy
quantifiers longest-first, alternatives left-first); the engine's chosen match
is the head of that list, exactly as a backtracking engine would find it. -/

inductive RE where
  /-- one character from a class -/
  | cls (p : Char → Bool)
  /-- case-sensitive literal -/
  | lit (s : List Char)
  /-- case-insensitive literal (stored lowercased) -/
  | liti (s : List Char)
  | seq (a b : RE)
  | alt (a b : RE)
  /-- greedy `*` over a character class -/
  | star (p : Char → Bool)
  /-- greedy `+` over a character class -/
  | plus (p : Char → Bool)
  /-- greedy `?` over a character class -/
  | opt (p : Char → Bool)
  /-- `$` without the `m` flag: end of input -/
  | eos
  /-- `^` with the `m` flag: start of input or after a line terminator -/
  | bol
  /-- `\b` word boundary -/
  | wb

/-- Length of the maximal run of characters satisfying `p` starting at
position `i`. -/
def maxRun (p : Char → Bool) (s : List Char) (i : Nat) : Nat :=
  ((s.drop i).takeWhile p).length

def wordAt (s : List Char) (i : Nat) : Bool :=
  match s.get? i with
  | some c => isWordChar c
  | none => false

/-- Whether a word character sits immediately before position `i`; the
position before the start of the input counts as non-word, so `\b` can match
at position 0 when the first character is a word character, as in
JavaScript. -/
def wordBefore (s : List Char) (i : Nat) : Bool :=
  if i = 0 then false else wordAt s (i - 1)

def RE.ends : RE → List Char → Nat → List Nat
  | .cls p, s, i =>
      match s.get? i with
      | some c => if p c then [i + 1] else []
      | none => []
  | .lit l, s, i => if l.isPrefixOf (s.drop i) then [i + l.length] else []
  | .liti l, s, i =>
      if ((s.drop i).take l.length).map Char.toLower = l then [i + l.length] else []
  | .seq a b, s, i => (RE.ends a s i).flatMap (fun j => RE.ends b s j)
  | .alt a b, s, i => RE.ends a s i ++ RE.ends b s i
  | .star p, s, i => ((List.range (maxRun p s i + 1)).reverse).map (fun k => i + k)
  | .plus p, s, i =>
      let n := maxRun p s i
      if n = 0 then [] else ((List.range n).reverse).map (fun k => i + 1 + k)
  | .opt p, s, i =>
      match s.get? i with
      | some c => if p c then [i + 1, i] else [i]
      | none => [i]
  | .eos, s, i => if i = s.length then [i] else []
  | .bol, s, i =>
      if i = 0 then [i]
      else match s.get? (i - 1) with
           | some c => if isLineTerm c then [i] else []
           | none => []
  | .wb, s, i => if wordBefore s i ≠ wordAt s i then [i] else []

/-- End position of the match the backtracking engine finds at position `i`,
if any. -/
def matchEnd (r : RE) (s : List Char) (i : Nat) : Option Nat :=
  (RE.ends r s i).head?

/-- Leftmost match at position ≥ `j` (what `RegExp.exec` finds when
`lastIndex = j`).  Returns the pair (match index, match end).  `fuel`
bounds the scan; `s.length + 1 - j` positions remain. -/
def findFromGo (r : RE) (s : List Char) : Nat → Nat → Option (Nat × Nat)
  | 0, _ => none
  | fuel + 1, j =>
      if j ≤ s.length then
        match matchEnd r s j with
        | some e => some (j, e)
        | none => findFromGo r s fuel (j + 1)
      else none

def findFrom (r : RE) (s : List Char) (j : Nat) : Option (Nat × Nat) :=
  findFromGo r s (s.length + 1 - j) j

/-- `lastMatchIndex` from `src/server/index.ts`: iterate `exec` with the `g`
flag over the window and return the start index of the final match, or `-1`.
On an empty match `lastIndex` is bumped by one, as in the source.  Every
iteration advances the position by at least one, and positions range over
`0 … s.length + 1`, so `s.length + 2` fuel is exact. -/
def lastIdxGo (r : RE) (s : List Char) : Nat → Nat → Int → Int
  | 0, _, last => last
  | fuel + 1, pos, last =>
      match findFrom r s pos with
      | none => last
      | some (idx, e) =>
          lastIdxGo r s fuel (if e = idx then idx + 1 else e) (Int.ofNat idx)

def lastMatchIndex (r : RE) (s : List Char) : Int :=
  lastIdxGo r s (s.length + 2) 0 (-1)

/-- `maxIndex` from `src/server/index.ts`: best (largest) last-match index over
a list of regular expressions, `-1` if none matches. -/
def maxIndex (s : List Char) (rs : List RE) : Int :=
  rs.foldl (fun best r => let idx := lastMatchIndex r s; if best < idx then idx else best) (-1)

/-! ### `stripAnsi` (`src/server/utils.ts`)

`s.replace(/\x1b\[[0-9;]*[A-Za-z]|\x1b\][^\x07]*\x07|\x1b[()][AB012]|\x1b\[[\?]?[0-9;]*[hlm]/g, '')`.
Every alternative starts with ESC, so the global replace scans left to right,
and at each ESC tries the four alternatives in order (each is deterministic:
a greedy class run followed by a character the class excludes). -/

/-- Number of characters (after a leading ESC, which is not counted) consumed
by the first alternative of the strip regex that matches, if any. -/
def ansiMatchLen (rest : List Char) : Option Nat :=
  let alt1 := match rest with
    | '[' :: t =>
        let run := (t.takeWhile isDigitSemi).length
        match t.get? run with
        | some c => if isAsciiLetter c then some (1 + run + 1) else none
        | none => none
    | _ => none
  let alt2 := match rest with
    | ']' :: t =>
        let run := (t.takeWhile (fun (c : Char) => c.val != 7)).length
        match t.get? run with
        | some _ => some (1 + run + 1)  -- the character after the run is BEL
        | none => none
    | _ => none
  let alt3 := match rest with
    | b :: c :: _ =>
        if (b = '(' || b = ')') &&
           (c = 'A' || c = 'B' || c = '0' || c = '1' || c = '2') then some 2 else none
    | _ => none
  let alt4 := match rest with
    | '[' :: '?' :: t =>
        let run := (t.takeWhile isDigitSemi).length
        match t.get? run with
        | some c => if c = 'h' || c = 'l' || c = 'm' then some (2 + run + 1) else none
        | none => none
    | _ => none
  (alt1.orElse fun _ => (alt2.orElse fun _ => (alt3.orElse fun _ => alt4)))

/-- Fuel-driven scanner; `fuel ≥ cs.length` always holds on the initial call
and each step consumes at least one character. -/
def stripAnsiGo : Nat → List Char → List Char
  | 0, cs => cs
  | _, [] => []
  | fuel + 1, c :: rest =>
      if c = '\x1b' then
        match ansiMatchLen rest with
        | some k => stripAnsiGo fuel (rest.drop k)
        | none => c :: stripAnsiGo fuel rest
      else c :: stripAnsiGo fuel rest

def stripAnsi (s : List Char) : List Char := stripAnsiGo s.length s

/-! ### Pattern groups (`PATTERNS` in `src/server/index.ts`) -/

structure PatternGroup where
  state : DetailedState
  res : List RE

/-- `/❯\s*$/` — bare prompt at end of output. -/
def idleREs : List RE :=
  [.seq (.lit ['❯']) (.seq (.star isJsSpace) .eos)]

def isNonSpace (c : Char) : Bool := !isJsSpace c

/-- Spinner and active-processing patterns (all with the `i` flag). -/
def workingREs : List RE :=
  [ .seq (.lit ['✻']) (.cls isJsSpace),
    .liti "thinking...".data,
    .liti "working...".data,
    .liti "channeling...".data,
    .seq (.liti "reading".data) (.seq (.plus isJsSpace)
      (.seq (.plus isNonSpace) (.seq (.lit ['.']) (.plus isNonSpace)))),
    .seq (.liti "writing".data) (.seq (.plus isJsSpace)
      (.seq (.plus isNonSpace) (.seq (.lit ['.']) (.plus isNonSpace)))),
    .seq (.liti "editing".data) (.seq (.plus isJsSpace)
      (.seq (.plus isNonSpace) (.seq (.lit ['.']) (.plus isNonSpace)))),
    .seq (.liti "running".data) (.seq (.plus isJsSpace) (.plus isNonSpace)),
    .seq (.liti "searching".data) (.seq (.plus isJsSpace) (.plus isNonSpace)) ]

def compactingREs : List RE :=
  [ .liti "compacting conversation".data,
    .liti "· compacting".data ]

def permissionREs : List RE :=
  [ .seq (.liti "do you want to proceed".data) (.opt (fun (c : Char) => c == '?')),
    .seq (.lit ['⏵', '⏵']) (.seq (.star isJsSpace) (.liti "accept".data)),
    .seq (.liti "allow".data) (.seq (.plus isJsSpace)
      (.alt (.liti "once".data) (.liti "always".data))),
    .seq (.liti "(y)es".data) .wb,
    .seq (.liti "yes".data) (.seq (.star isJsSpace)
      (.seq (.lit ['/']) (.seq (.star isJsSpace) (.liti "no".data)))),
    .seq .wb (.seq (.liti "deny".data) (.seq .wb (.seq (.star isDotChar)
      (.seq .wb (.seq (.liti "allow".data) .wb))))),
    .liti "press enter to confirm".data,
    .liti "trust this folder".data,
    .liti "enter to confirm".data,
    .liti "yes, i trust".data,
    .liti "quick safety check".data,
    .liti "bypass permissions mode".data,
    .liti "yes, i accept".data ]

/-- `/^Error:/m` — `Error:` anchored at a line start (case-sensitive). -/
def errorLineRE : RE := .seq .bol (.lit "Error:".data)

def errorREs : List RE :=
  [ errorLineRE,
    .seq .wb (.seq (.lit "APIError".data) .wb),
    .seq .wb (.seq (.liti "overloaded".data) .wb),
    .liti "rate limit".data,
    .alt (.lit "ENOENT".data) (.alt (.lit "EACCES".data)
      (.alt (.lit "EPERM".data) (.lit "ECONNREFUSED".data))),
    .seq (.alt (.lit "spawn".data) (.lit "exec".data)) (.seq (.plus isJsSpace)
      (.seq (.plus isNonSpace) (.seq (.plus isJsSpace) (.lit "ENOENT".data)))),
    .liti "authentication failed".data,
    .seq (.liti "invalid".data) (.seq (.star isDotChar)
      (.seq (.liti "api".data) (.seq (.cls isDotChar) (.liti "key".data)))) ]

def PATTERNS : List PatternGroup :=
  [ ⟨.idle, idleREs⟩,
    ⟨.working, workingREs⟩,
    ⟨.compacting, compactingREs⟩,
    ⟨.permission_needed, permissionREs⟩,
    ⟨.error, errorREs⟩ ]

def groupLastIndex (g : PatternGroup) (w : List Char) : Int := maxIndex w g.res

/-! ### `StateDetector.feed` (`src/server/index.ts`)

The synchronous part of `feed`: window roll, pattern evaluation, state
transition.  The 30-second idle timer and the time-accumulation metrics are
real-time behaviour outside the scope of the claims and are not modelled. -/

def WINDOW_SIZE : Nat := 2048

structure DetState where
  window : List Char
  state : DetailedState
deriving DecidableEq, Repr

/-- Fresh per-session detector state, as initialised on first feed. -/
def initDetState : DetState := ⟨[], .starting⟩

/-- `window.slice(-WINDOW_SIZE)`. -/
def takeLast (n : Nat) (l : List Char) : List Char := l.drop (l.length - n)

/-- One step of the `for (const p of PATTERNS)` loop: running best
`(state?, index)` pair, updated on strict improvement (`idx > bestIndex`). -/
def bestStep (w : List Char) (acc : Option DetailedState × Int) (g : PatternGroup) :
    Option DetailedState × Int :=
  if acc.2 < groupLastIndex g w then (some g.state, groupLastIndex g w) else acc

def pickBest (w : List Char) : Option DetailedState × Int :=
  PATTERNS.foldl (bestStep w) (none, -1)

/-- The transition choice after the pattern loop: `bestState` when some group
matched; otherwise stay in `starting` or fall to `working`. -/
def nextState (prev : DetailedState) (best : Option DetailedState) : DetailedState :=
  match best with
  | some s => s
  | none => if prev = .starting then .starting else .working

def detFeed (ss : DetState) (raw : List Char) : DetState :=
  let plain := stripAnsi raw
  let w := takeLast WINDOW_SIZE (ss.window ++ plain)
  ⟨w, nextState ss.state (pickBest w).1⟩

/-! ### `src/server/shared.ts` — argv allow-list and skip-permissions default

`ALLOWED_FLAGS` may be extended at startup from the `BB_EXTRA_ARGS`
environment variable; the extras are a parameter `extra` below.  Likewise
`DEFAULT_SKIP_PERMISSIONS` (`BB_SKIP_PERMISSIONS === 'true'`) is a parameter
`dflt` of `applySkipPermissions`. -/

def BASE_ALLOWED_FLAGS : List String :=
  [ "--model", "-m",
    "--print", "-p",
    "--resume", "-r",
    "--continue", "-c",
    "--dangerously-skip-permissions",
    "--verbose",
    "--version" ]

/-- `arg.slice(0, arg.indexOf('='))`: the characters before the first `=`. -/
def flagPart (arg : String) : String :=
  ⟨arg.data.takeWhile (fun (c : Char) => c != '=')⟩

/-- `s.startsWith(pre)`, stated over the character list (extensionally the
core `String.startsWith`, whose byte-position implementation does not reduce
definitionally). -/
def strStartsWith (s pre : String) : Bool := pre.data.isPrefixOf s.data

/-- `isAllowedArg` from `src/server/shared.ts`. -/
def isAllowedArg (extra : List String) (arg : String) : Bool :=
  let allowed := BASE_ALLOWED_FLAGS ++ extra
  if allowed.contains arg then true
  else if arg.data.contains '=' && allowed.contains (flagPart arg) then true
  else !strStartsWith arg "-"

/-- `SessionManager.spawn`'s argv validation loop: the first disallowed
argument, if any (the spawn throws `Unknown argument: …` on it). -/
def findBadArg (extra : List String) (args : List String) : Option String :=
  args.find? (fun a => !isAllowedArg extra a)

/-- The spec's wording for the allow-list, used to compare against the code's
`isAllowedArg`: an exact enumerated flag (plus configured extras), or a
`flag=value` form whose flag part is allowed, or a positional value not
starting with `-`. -/
def specAllowedShape (extra : List String) (arg : String) : Prop :=
  arg ∈ BASE_ALLOWED_FLAGS ++ extra
  ∨ ('=' ∈ arg.data ∧ flagPart arg ∈ BASE_ALLOWED_FLAGS ++ extra)
  ∨ strStartsWith arg "-" = false

instance (extra : List String) (arg : String) : Decidable (specAllowedShape extra arg) := by
  unfold specAllowedShape; infer_instance

/-- `--dangerously-skip-permissions`. -/
def DSP : String := "--dangerously-skip-permissions"

/-- The skip-permissions argv mutation in `SessionManager.spawn`
(`src/server/session-manager.ts`): `skipPerms = opts.skipPermissions ??
DEFAULT_SKIP_PERMISSIONS`; if resolved true and the flag is absent, append it;
else if resolved false, `splice` out the first occurrence. -/
def applySkipPermissions (skipOpt : Option Bool) (dflt : Bool) (args : List String) :
    List String :=
  let skipPerms := skipOpt.getD dflt
  if skipPerms && !args.contains DSP then args ++ [DSP]
  else if !skipPerms then args.erase DSP
  else args

/-! ### Auto-naming (`SessionManager.autoName` / `spawn`)

The supervisor keeps a private `nameCounter` that only `autoName` increments;
`spawn` calls `autoName` exactly when the caller omits `name` (the `??`
operator does not evaluate its right operand otherwise), then truncates the
resulting name with `.slice(0, 200)`.  Kills and exits never touch the
counter.  Names are `List Char` (JS strings). -/

/-- `autoName`: increments the counter and derives the name. -/
def autoNameFor (counter : Nat) : List Char :=
  if counter = 1 then "Claude".data else "Claude ".data ++ (Nat.repr counter).data

/-- The `.slice(0, 200)` applied to the chosen name in `spawn`. -/
def spawnAutoName (counter : Nat) : List Char := (autoNameFor counter).take 200

/-- Supervisor operations that matter to the naming discipline: a spawn
omitting `name`, a spawn supplying one, and anything else (kill, exit,
write, …) which leaves the counter alone. -/
inductive SupOp where
  | spawnAuto
  | spawnNamed (n : List Char)
  | other
deriving DecidableEq, Repr

/-- Names produced for the auto-named spawns of an operation sequence,
threading the monotonic counter. -/
def autoNamesGo : Nat → List SupOp → List (List Char)
  | _, [] => []
  | ctr, .spawnAuto :: rest => spawnAutoName (ctr + 1) :: autoNamesGo (ctr + 1) rest
  | ctr, .spawnNamed _ :: rest => autoNamesGo ctr rest
  | ctr, .other :: rest => autoNamesGo ctr rest

/-- Auto-generated names over the life of a fresh supervisor
(`nameCounter = 0`). -/
def autoNames (ops : List SupOp) : List (List Char) := autoNamesGo 0 ops

/-- Number of auto-named spawns in an operation sequence. -/
def countAuto (ops : List SupOp) : Nat := (ops.filter (· = .spawnAuto)).length

/-! ### The session store (`SessionManager`, `src/server/session-manager.ts`)

The store is the `Map<string, ManagedSession>`; we model it as a function
from ids to optional records.  ISO timestamp fields (`createdAt`,
`lastActivityAt`, `taskStartedAt`) and the state-detector metrics are
wall-clock data not referenced by any claim and are left out.  External
effects (`pty.write`, `pty.kill`, `pty.resize`, listener disposal, detector
removal, transcript-file appends) carry no observable store state; the
emitted `exit` event and the bytes written to the PTY are made explicit
because claims refer to them. -/

inductive SStatus where
  | running
  | exited
deriving DecidableEq, Repr

inductive Role where
  | user
  | assistant
deriving DecidableEq, Repr

structure TranscriptEntry where
  role : Role
  content : String
deriving DecidableEq, Repr

structure SessRec where
  status : SStatus
  exitCode : Option Int
  pid : Option Nat
  cols : Nat
  rows : Nat
  task : Option String
  scrollback : List String
  scrollbackBytes : Int
  transcript : List TranscriptEntry
  assistantOutputStart : Nat
deriving Repr

def Store : Type := String → Option SessRec

def updateStore (st : Store) (id : String) (s : SessRec) : Store :=
  fun j => if j = id then some s else st j

def eraseStore (st : Store) (id : String) : Store :=
  fun j => if j = id then none else st j

inductive Event where
  | exitEv (id : String) (code : Int)
deriving DecidableEq, Repr

/-- `getInfo` (returns `undefined` when the id is unknown; the `syncMetrics`
call only refreshes the wall-clock metric fields). -/
def getInfo (st : Store) (id : String) : Option SessRec := st id

/-- `getScrollback`: defensive copy of the chunk list, `[]` when unknown. -/
def getScrollback (st : Store) (id : String) : List String :=
  match st id with
  | some s => s.scrollback
  | none => []

/-- `getTranscript`: the entry list, `[]` when unknown. -/
def getTranscript (st : Store) (id : String) : List TranscriptEntry :=
  match st id with
  | some s => s.transcript
  | none => []

/-- `data.replace(/\r$/, '')`: strips one trailing carriage return (in
JavaScript, `$` without the `m` flag matches only at the very end). -/
def stripTrailingCR (data : String) : String :=
  if data.data.getLast? = some '\r' then ⟨data.data.dropLast⟩ else data

/-- The transcript bound (`BB_TRANSCRIPT_SIZE`, default 500) is a startup
configuration; it is a parameter `maxT` of `write`.  The `splice(0, length -
MAX_TRANSCRIPT)` drops the oldest entries. -/
def truncateTranscript (maxT : Nat) (tr : List TranscriptEntry) : List TranscriptEntry :=
  if maxT < tr.length then tr.drop (tr.length - maxT) else tr

/-- `SessionManager.write`.  Result: updated store, returned boolean, and the
list of strings written to the PTY driver. -/
def write (maxT : Nat) (st : Store) (id : String) (data : String) :
    Store × Bool × List String :=
  match st id with
  | none => (st, false, [])
  | some s =>
      if s.status ≠ .running then (st, false, [])
      else
        let content := stripTrailingCR data
        if content ≠ "" then
          (updateStore st id
            { s with
              transcript := truncateTranscript maxT (s.transcript ++ [⟨.user, content⟩]),
              assistantOutputStart := s.scrollback.length },
           true, [data])
        else (st, true, [data])

/-- `sanitizeColsRows` from `src/server/shared.ts`, restricted to integer
inputs (the claims never exercise fractional or non-finite values; `none`
stands for `undefined`). -/
def sanitizeColsRows (value : Option Int) (fallback : Nat) : Nat :=
  match value with
  | none => fallback
  | some v => (max 1 (min 500 v)).toNat

/-- `SessionManager.resize`. -/
def resize (st : Store) (id : String) (cols rows : Int) : Store × Bool :=
  match st id with
  | none => (st, false)
  | some s =>
      if s.status ≠ .running then (st, false)
      else
        let safeCols := sanitizeColsRows (some cols) s.cols
        let safeRows := sanitizeColsRows (some rows) s.rows
        (updateStore st id { s with cols := safeCols, rows := safeRows }, true)

/-- `SessionManager.setTask` (the `taskStartedAt` refresh is a timestamp). -/
def setTask (st : Store) (id : String) (task : String) : Store × Bool :=
  match st id with
  | none => (st, false)
  | some s => (updateStore st id { s with task := some task }, true)

/-- `SessionManager.kill`.  Unknown id: `false`, nothing else.  Already
exited: remove from the store (plus detector removal), `true`, no event.
Running: dispose listeners, terminate the PTY, remove, emit `exit(id, -1)`. -/
def kill (st : Store) (id : String) : Store × Bool × List Event :=
  match st id with
  | none => (st, false, [])
  | some s =>
      if s.status = .exited then (eraseStore st id, true, [])
      else (eraseStore st id, true, [.exitEv id (-1)])

/-! ### Scrollback append + eviction (`spawn`'s `onData` handler) -/

def MAX_SCROLLBACK_BYTES : Int := 2 * 1024 * 1024

/-- `Buffer.byteLength(data)`: UTF-8 byte size. -/
def byteLen (s : String) : Int := Int.ofNat s.utf8ByteSize

def sumBytes (l : List String) : Int := (l.map byteLen).sum

/-- The `while (bytes > MAX_SCROLLBACK_BYTES && scrollback.length > 1)` loop:
shift the oldest chunk, decrement the byte counter, decrement
`assistantOutputStart` when positive.  Fuel `sb.length` is exact: each
iteration removes one element and the loop needs `length > 1`. -/
def evictGo : Nat → List String → Int → Nat → List String × Int × Nat
  | 0, sb, b, a => (sb, b, a)
  | fuel + 1, sb, b, a =>
      if MAX_SCROLLBACK_BYTES < b ∧ 1 < sb.length then
        match sb with
        | [] => (sb, b, a)
        | h :: t => evictGo fuel t (b - byteLen h) (if 0 < a then a - 1 else a)
      else (sb, b, a)

/-- The `onData` handler's scrollback bookkeeping: push the chunk, add its
byte length, evict from the front to the bound.  (The handler then feeds the
state detector — `detFeed` — and emits `output`.) -/
def appendChunk (s : SessRec) (data : String) : SessRec :=
  let sb := s.scrollback ++ [data]
  let b := s.scrollbackBytes + byteLen data
  let r := evictGo sb.length sb b s.assistantOutputStart
  { s with scrollback := r.1, scrollbackBytes := r.2.1, assistantOutputStart := r.2.2 }

/-! ### The WebSocket fan-out bridge (`src/server/ws-bridge.ts`)

Only the pieces the claims touch: the `subscribe` branch of `handleMessage`
and the output flush.  A `subscribe` event carries the value
`sessions.getScrollback(id)` returns at processing time; `flushOutput`
is the 16 ms timer delivering a coalesced buffer.  The single-threaded
event loop processes events in order, so the model is a fold. -/

inductive Frame where
  | scrollback (sessionId : String) (data : String)
  | output (sessionId : String) (data : String)
deriving DecidableEq, Repr

inductive BridgeAction where
  | resize (sessionId : String) (cols rows : Nat)
  | deliver (f : Frame)
deriving DecidableEq, Repr

structure ClientState where
  subscriptions : List String
  readyState : Nat
  bufferedAmount : Nat
deriving Repr

def WS_OPEN : Nat := 1

def MAX_WS_BUFFER_BYTES : Nat := 4 * 1024 * 1024

/-- `WsBridge.send` for `output`/`scrollback` frames: dropped unless the
socket is open and the outbound buffer is under the backpressure ceiling. -/
def wsCanSendData (c : ClientState) : Bool :=
  c.readyState = WS_OPEN && !(MAX_WS_BUFFER_BYTES < c.bufferedAmount)

inductive BEvent where
  | subscribe (sessionId : String) (cols rows : Nat) (sb : List String)
  | flushOutput (sessionId : String) (data : String)
deriving DecidableEq, Repr

/-- One bridge event against one client: the `subscribe` branch resizes first
(when both dimensions are truthy, i.e. nonzero), records the subscription,
then sends the concatenated scrollback — but only when it is nonempty;
`flushOutput` sends an `output` frame to subscribed clients. -/
def bstep (c : ClientState) (e : BEvent) : ClientState × List BridgeAction :=
  match e with
  | .subscribe sid cols rows sb =>
      let ra : List BridgeAction :=
        if cols ≠ 0 ∧ rows ≠ 0 then [.resize sid cols rows] else []
      let c2 : ClientState := { c with subscriptions := sid :: c.subscriptions }
      let fa : List BridgeAction :=
        if 0 < sb.length ∧ wsCanSendData c2 then
          [.deliver (.scrollback sid (String.join sb))] else []
      (c2, ra ++ fa)
  | .flushOutput sid data =>
      (c, if c.subscriptions.contains sid ∧ wsCanSendData c then
            [.deliver (.output sid data)] else [])

/-- Run a sequence of bridge events in order (the single-threaded event
loop), collecting the actions in order. -/
def brun : ClientState → List BEvent → ClientState × List BridgeAction
  | c, [] => (c, [])
  | c, e :: es =>
      let r := bstep c e
      let rest := brun r.1 es
      (rest.1, r.2 ++ rest.2)

def BridgeAction.isOutputFor (sid : String) : BridgeAction → Bool
  | .deliver (.output s _) => s = sid
  | _ => false

def BridgeAction.isScrollbackFor (sid : String) : BridgeAction → Bool
  | .deliver (.scrollback s _) => s = sid
  | _ => false

/-- Whether an event is a `subscribe` for the given session. -/
def BEvent.isSubscribeFor (sid : String) : BEvent → Bool
  | .subscribe s _ _ _ => s = sid
  | _ => false

/-! ## Sample data used by witnesses -/

/-- A minimal session record with the given status. -/
def sampleSess (status : SStatus) : SessRec :=
  ⟨status, none, some 1, 120, 40, none, [], 0, [], 0⟩

/-- A one-session store holding an exited session under id `"a"`. -/
def storeExited : Store :=
  fun j => if j = "a" then some (sampleSess .exited) else none

/-- A one-session store holding a running session under id `"s"` whose
scrollback has one chunk. -/
def storeRunning : Store :=
  fun j => if j = "s" then some { sampleSess .running with scrollback := ["a"] } else none

/-- The empty store. -/
def storeEmpty : Store := fun _ => none

/-- A fresh connected client (socket open, empty outbound buffer). -/
def client0 : ClientState := ⟨[], WS_OPEN, 0⟩

/-! ## Claims -/

/-- C3: kill is idempotent at the descriptor-removal level: for any session in
the store, `kill id` returns true and removes the session, so an immediately
following `kill id` returns false; `kill` returns false exactly when the id
is unknown; and killing a session whose descriptor is already exited removes
it and returns true without emitting an exit event. -/
theorem claim_C3 (st : Store) (id : String) :
    (∀ s, st id = some s →
       (kill st id).2.1 = true ∧ (kill st id).1 id = none ∧
       (kill (kill st id).1 id).2.1 = false) ∧
    ((kill st id).2.1 = false ↔ st id = none) ∧
    (∀ s, st id = some s → s.status = .exited →
       (kill st id).2.2 = [] ∧ (kill st id).1 id = none ∧ (kill st id).2.1 = true) := by
  refine ⟨?_, ?_, ?_⟩
  · intro s hs
    simp only [kill, hs]
    by_cases hex : s.status = .exited <;>
      simp [hex, eraseStore]
  · cases hst : st id with
    | none => simp [kill, hst]
    | some s => by_cases hex : s.status = .exited <;> simp [kill, hst, hex]
  · intro s hs hex
    simp [kill, hs, hex, eraseStore]

/-- C3 witness: the concrete pair of kills on a store holding an exited
session under id `"a"`. -/
theorem claim_C3_witness :
    (kill storeExited "a").2.1 = true ∧
    (kill (kill storeExited "a").1 "a").2.1 = false ∧
    (kill storeExited "a").2.2 = [] := by
  have h := claim_C3 storeExited "a"
  have h1 := (h.1 (sampleSess .exited) rfl)
  have h3 := (h.2.2 (sampleSess .exited) rfl rfl)
  exact ⟨h1.1, h1.2.2, h3.1⟩

/-- C10: every public read or mutation is total on unknown ids: `getInfo`
returns none, `getScrollback` and `getTranscript` return the empty list, and
`write`, `resize`, `setTask` and `kill` return false, in every case leaving
the store untouched. -/
theorem claim_C10 (st : Store) (id : String) (data task : String)
    (cols rows : Int) (maxT : Nat) (h : st id = none) :
    getInfo st id = none ∧
    getScrollback st id = [] ∧
    getTranscript st id = [] ∧
    write maxT st id data = (st, false, []) ∧
    resize st id cols rows = (st, false) ∧
    setTask st id task = (st, false) ∧
    kill st id = (st, false, []) := by
  simp [getInfo, getScrollback, getTranscript, write, resize, setTask, kill, h]

/-- C10 witness: the empty store with id `"z"`. -/
theorem claim_C10_witness :
    getInfo storeEmpty "z" = none ∧
    getScrollback storeEmpty "z" = [] ∧
    getTranscript storeEmpty "z" = [] ∧
    write 500 storeEmpty "z" "x" = (storeEmpty, false, []) ∧
    resize storeEmpty "z" 80 24 = (storeEmpty, false) ∧
    setTask storeEmpty "z" "t" = (storeEmpty, false) ∧
    kill storeEmpty "z" = (storeEmpty, false, []) :=
  claim_C10 storeEmpty "z" "x" "t" 80 24 500 rfl

/-- The code's `isAllowedArg` agrees with the spec's description of the
allow-list. -/
theorem isAllowedArg_eq_spec (extra : List String) (arg : String) :
    isAllowedArg extra arg = true ↔ specAllowedShape extra arg := by
  unfold isAllowedArg specAllowedShape
  by_cases h1 : arg ∈ BASE_ALLOWED_FLAGS ++ extra
  · simp [h1]
  · by_cases h2 : '=' ∈ arg.data
    · by_cases h3 : flagPart arg ∈ BASE_ALLOWED_FLAGS ++ extra
      · simp [h1, h2, h3]
      · simp [h1, h2, h3]
    · simp [h1, h2]

/-- C5: spawn's argv validation rejects an argv exactly when it contains an
element that is neither an enumerated allowed flag (plus configured extras),
nor a `flag=value` form whose flag part is allowed, nor a positional value
not starting with `-`; an argv made only of allowed shapes passes. -/
theorem claim_C5 (extra : List String) (args : List String) :
    ((findBadArg extra args).isSome = true ↔ ∃ a ∈ args, ¬ specAllowedShape extra a) ∧
    (findBadArg extra args = none ↔ ∀ a ∈ args, specAllowedShape extra a) := by
  have key : ∀ a, (isAllowedArg extra a = false) ↔ ¬ specAllowedShape extra a := by
    intro a
    rw [← isAllowedArg_eq_spec]
    simp
  constructor
  · rw [findBadArg, List.find?_isSome]
    simp [key]
  · rw [findBadArg, List.find?_eq_none]
    simp [key]

/-- C5 witness: a concrete all-allowed argv passes and a concrete argv with
an unlisted flag is rejected. -/
theorem claim_C5_witness :
    (∀ a ∈ ["--model", "sonnet", "-m=5", "--continue"], specAllowedShape [] a) ∧
    (∃ a ∈ ["--model", "--bad-flag"], ¬ specAllowedShape [] a) := by
  constructor
  · exact (claim_C5 [] ["--model", "sonnet", "-m=5", "--continue"]).2.mp (by decide)
  · exact (claim_C5 [] ["--model", "--bad-flag"]).1.mp (by decide)

/-- C9 counterexample: with the skip-permissions option absent and the
environment default disabled, a caller argv carrying the flag twice still
reaches the driver containing the flag — the splice removes only the first
occurrence — contradicting the claim that the resulting argv never contains
it. -/
theorem claim_C9_counterexample :
    DSP ∈ applySkipPermissions none false [DSP, DSP] ∧
    applySkipPermissions none false [DSP, DSP] = [DSP] := by
  constructor
  · decide
  · decide

/-- C9 (amended): when `skipPermissions` resolves to true the flag is appended
exactly when absent; when it resolves to false the FIRST caller-supplied
occurrence is removed, so the resulting argv is flag-free provided the caller
supplied the flag at most once — in particular when the option is absent and
the environment default is disabled. -/
theorem claim_C9_amended (skipOpt : Option Bool) (dflt : Bool) (args : List String) :
    (skipOpt.getD dflt = true → args.contains DSP = false →
       applySkipPermissions skipOpt dflt args = args ++ [DSP]) ∧
    (skipOpt.getD dflt = true → args.contains DSP = true →
       applySkipPermissions skipOpt dflt args = args) ∧
    (skipOpt.getD dflt = false →
       applySkipPermissions skipOpt dflt args = args.erase DSP) ∧
    (skipOpt = none → dflt = false → List.count DSP args ≤ 1 →
       DSP ∉ applySkipPermissions skipOpt dflt args) := by
  refine ⟨?_, ?_, ?_, ?_⟩
  · intro hs hc
    simp only [applySkipPermissions, hs, hc]
    simp
  · intro hs hc
    simp only [applySkipPermissions, hs, hc]
    simp
  · intro hs
    simp only [applySkipPermissions, hs]
    simp
  · intro hnone hdflt hcount hmem
    subst hnone; subst hdflt
    have he : applySkipPermissions none false args = args.erase DSP := by
      simp [applySkipPermissions]
    rw [he] at hmem
    have h0 : List.count DSP (args.erase DSP) = List.count DSP args - 1 :=
      List.count_erase_self DSP args
    have h1 : 0 < List.count DSP (args.erase DSP) := List.count_pos_iff.mpr hmem
    omega

/-- C9 amended witness: option absent, default disabled, flag supplied once:
it is stripped; option absent, default enabled, flag absent: it is appended. -/
theorem claim_C9_amended_witness :
    applySkipPermissions none false ["--model", DSP] = ["--model"] ∧
    applySkipPermissions none true ["--model"] = ["--model", DSP] := by
  constructor
  · have h := (claim_C9_amended none false ["--model", DSP]).2.2.1 rfl
    rw [h]; decide
  · exact (claim_C9_amended none true ["--model"]).1 rfl (by decide)

/-- C4 counterexample: on a running session with one scrollback chunk and
`assistantOutputStart = 0`, `write(id, CR)` succeeds (returns true) yet the
stripped content is empty, so no transcript entry is recorded and
`assistantOutputStart` is NOT set to the scrollback length (it stays `0`
while the scrollback length is `1`) — against the claim's unconditional
"sets assistantOutputStart to the current scrollback length". -/
theorem claim_C4_counterexample :
    (write 500 storeRunning "s" "\r").2.1 = true ∧
    ((write 500 storeRunning "s" "\r").1 "s").map (fun s => s.assistantOutputStart) =
      some 0 ∧
    (getScrollback (write 500 storeRunning "s" "\r").1 "s").length = 1 ∧
    getTranscript (write 500 storeRunning "s" "\r").1 "s" = [] :=
  ⟨rfl, rfl, rfl, rfl⟩

/-- C4 (amended): `write` returns false exactly when the id is unknown or the
session is not running; otherwise it writes the data to the driver and, when
the content (data with a single trailing carriage return stripped) is
nonempty, records exactly one user transcript entry with that content and
sets `assistantOutputStart` to the current scrollback length; when the
content is empty it records nothing and leaves the store unchanged. -/
theorem claim_C4_amended (maxT : Nat) (st : Store) (id : String) (data : String) :
    (∀ s, st id = some s → s.status = .running →
       (write maxT st id data).2.1 = true ∧
       (write maxT st id data).2.2 = [data] ∧
       (stripTrailingCR data ≠ "" →
          (write maxT st id data).1 id = some
            { s with
              transcript := truncateTranscript maxT
                  (s.transcript ++ [⟨.user, stripTrailingCR data⟩]),
              assistantOutputStart := s.scrollback.length } ∧
          (s.transcript.length < maxT →
             getTranscript (write maxT st id data).1 id =
               s.transcript ++ [⟨.user, stripTrailingCR data⟩])) ∧
       (stripTrailingCR data = "" → (write maxT st id data).1 = st)) ∧
    ((write maxT st id data).2.1 = false ↔
       st id = none ∨ ∃ s, st id = some s ∧ s.status ≠ .running) := by
  constructor
  · intro s hs hrun
    by_cases hc : stripTrailingCR data = ""
    · have hw : write maxT st id data = (st, true, [data]) := by
        simp [write, hs, hrun, hc]
      rw [hw]
      exact ⟨rfl, rfl, fun h => absurd hc h, fun _ => rfl⟩
    · have hw : write maxT st id data =
          (updateStore st id
            { s with
              transcript := truncateTranscript maxT
                  (s.transcript ++ [⟨.user, stripTrailingCR data⟩]),
              assistantOutputStart := s.scrollback.length }, true, [data]) := by
        simp [write, hs, hrun, hc]
      rw [hw]
      refine ⟨rfl, rfl, fun _ => ⟨by simp [updateStore], ?_⟩, fun h => absurd h hc⟩
      intro hlen
      have ht : truncateTranscript maxT
          (s.transcript ++ [⟨.user, stripTrailingCR data⟩]) =
          s.transcript ++ [⟨.user, stripTrailingCR data⟩] := by
        unfold truncateTranscript
        rw [if_neg]
        simp only [List.length_append, List.length_cons, List.length_nil]
        omega
      simp [getTranscript, updateStore, ht]
  · cases hst : st id with
    | none => simp [write, hst]
    | some s =>
      by_cases hrun : s.status = SStatus.running
      · by_cases hc : stripTrailingCR data = ""
        · simp [write, hst, hrun, hc]
        · simp [write, hst, hrun, hc]
      · simp [write, hst, hrun]

/-- C4 amended witness: `write(id, "x" + CR)` on a running session records
exactly one user entry with content `"x"`. -/
theorem claim_C4_amended_witness :
    (write 500 storeRunning "s" "x\r").2.1 = true ∧
    getTranscript (write 500 storeRunning "s" "x\r").1 "s" =
      [⟨.user, "x"⟩] := by
  have h := (claim_C4_amended 500 storeRunning "s" "x\r").1
    { sampleSess .running with scrollback := ["a"] } rfl rfl
  refine ⟨h.1, ?_⟩
  have h2 := (h.2.2.1 (by decide)).2 (by decide)
  rw [h2]
  decide

/-! ### C2: scrollback eviction lemmas -/

theorem sumBytes_nonneg (l : List String) : 0 ≤ sumBytes l := by
  apply List.sum_nonneg
  intro x hx
  obtain ⟨y, _, rfl⟩ := List.mem_map.mp hx
  exact Int.ofNat_nonneg _

theorem sumBytes_append (l₁ l₂ : List String) :
    sumBytes (l₁ ++ l₂) = sumBytes l₁ + sumBytes l₂ := by
  simp [sumBytes]

theorem sumBytes_cons (x : String) (l : List String) :
    sumBytes (x :: l) = byteLen x + sumBytes l := by
  simp [sumBytes]

theorem sumBytes_dropLast_le (l : List String) :
    sumBytes l.dropLast ≤ sumBytes l := by
  rcases eq_or_ne l [] with rfl | h
  · simp
  · conv_rhs => rw [← List.dropLast_append_getLast h]
    rw [sumBytes_append]
    have := sumBytes_nonneg [l.getLast h]
    omega

/-- Eviction preserves the byte-counter invariant. -/
theorem evictGo_sum (fuel : Nat) : ∀ (sb : List String) (b : Int) (a : Nat),
    b = sumBytes sb →
    (evictGo fuel sb b a).2.1 = sumBytes (evictGo fuel sb b a).1 := by
  induction fuel with
  | zero => intro sb b a h; simpa [evictGo] using h
  | succ n ih =>
    intro sb b a h
    cases sb with
    | nil =>
      rw [evictGo, if_neg (by simp)]
      simpa using h
    | cons x t =>
      by_cases hc : MAX_SCROLLBACK_BYTES < b ∧ 1 < (x :: t).length
      · rw [evictGo, if_pos hc]
        apply ih
        rw [sumBytes_cons] at h
        omega
      · rw [evictGo, if_neg hc]
        simpa using h

/-- With enough fuel the loop only stops when its guard fails. -/
theorem evictGo_exit (fuel : Nat) : ∀ (sb : List String) (b : Int) (a : Nat),
    sb.length ≤ fuel →
    ¬(MAX_SCROLLBACK_BYTES < (evictGo fuel sb b a).2.1 ∧
      1 < (evictGo fuel sb b a).1.length) := by
  induction fuel with
  | zero =>
    intro sb b a hlen
    have : sb = [] := List.eq_nil_of_length_eq_zero (Nat.le_zero.mp hlen)
    subst this
    simp [evictGo]
  | succ n ih =>
    intro sb b a hlen
    cases sb with
    | nil =>
      rw [evictGo, if_neg (by simp)]
      simp
    | cons x t =>
      by_cases hc : MAX_SCROLLBACK_BYTES < b ∧ 1 < (x :: t).length
      · rw [evictGo, if_pos hc]
        refine ih t _ _ ?_
        simp only [List.length_cons] at hlen
        omega
      · rw [evictGo, if_neg hc]
        simpa using hc

/-- Eviction never empties a nonempty scrollback. -/
theorem evictGo_ne_nil (fuel : Nat) : ∀ (sb : List String) (b : Int) (a : Nat),
    sb ≠ [] → (evictGo fuel sb b a).1 ≠ [] := by
  induction fuel with
  | zero => intro sb b a h; simpa [evictGo] using h
  | succ n ih =>
    intro sb b a h
    cases sb with
    | nil => exact absurd rfl h
    | cons x t =>
      by_cases hc : MAX_SCROLLBACK_BYTES < b ∧ 1 < (x :: t).length
      · rw [evictGo, if_pos hc]
        apply ih
        have h2 : 1 < (x :: t).length := hc.2
        simp only [List.length_cons] at h2
        intro ht
        subst ht
        simp at h2
      · rw [evictGo, if_neg hc]
        simp

/-- C2: for every session and every appended output chunk, the scrollback is
nonempty afterwards and its total byte count minus the byte size of its
single newest chunk is at most `2·1024·1024` (at most one chunk is retained
beyond the ceiling); the byte counter stays equal to the true byte sum. -/
theorem claim_C2 (s : SessRec) (data : String)
    (hinv : s.scrollbackBytes = sumBytes s.scrollback) :
    (appendChunk s data).scrollback ≠ [] ∧
    sumBytes (appendChunk s data).scrollback.dropLast ≤ 2 * 1024 * 1024 ∧
    (appendChunk s data).scrollbackBytes =
      sumBytes (appendChunk s data).scrollback := by
  have hMAX : MAX_SCROLLBACK_BYTES = 2 * 1024 * 1024 := rfl
  simp only [appendChunk]
  set sb := s.scrollback ++ [data] with hsb
  set b := s.scrollbackBytes + byteLen data with hb
  have hsum : b = sumBytes sb := by
    rw [hb, hinv, hsb, sumBytes_append, sumBytes_cons]
    simp [sumBytes]
  have hne : sb ≠ [] := by simp [hsb]
  have h1 := evictGo_ne_nil sb.length sb b s.assistantOutputStart hne
  have h2 := evictGo_sum sb.length sb b s.assistantOutputStart hsum
  have h3 := evictGo_exit sb.length sb b s.assistantOutputStart (le_refl _)
  refine ⟨h1, ?_, h2⟩
  rcases not_and_or.mp h3 with h | h
  · have hb2 : sumBytes (evictGo sb.length sb b s.assistantOutputStart).1 ≤
        2 * 1024 * 1024 := by
      rw [← h2]
      rw [hMAX] at h
      omega
    have := sumBytes_dropLast_le (evictGo sb.length sb b s.assistantOutputStart).1
    omega
  · have hlen1 : (evictGo sb.length sb b s.assistantOutputStart).1.length = 1 := by
      have hpos : 0 < (evictGo sb.length sb b s.assistantOutputStart).1.length :=
        List.length_pos.mpr h1
      omega
    have hdrop : (evictGo sb.length sb b s.assistantOutputStart).1.dropLast = [] := by
      apply List.eq_nil_of_length_eq_zero
      rw [List.length_dropLast, hlen1]
    rw [hdrop]
    simp [sumBytes]

/-- C2 witness: appending a chunk to a fresh session. -/
theorem claim_C2_witness :
    (appendChunk (sampleSess .running) "ab").scrollback ≠ [] ∧
    sumBytes (appendChunk (sampleSess .running) "ab").scrollback.dropLast ≤
      2 * 1024 * 1024 :=
  ⟨(claim_C2 (sampleSess .running) "ab" rfl).1,
   (claim_C2 (sampleSess .running) "ab" rfl).2.1⟩

/-! ### C6: bridge lemmas -/

/-- `bstep` never changes the socket fields. -/
theorem bstep_fields (c : ClientState) (e : BEvent) :
    (bstep c e).1.readyState = c.readyState ∧
    (bstep c e).1.bufferedAmount = c.bufferedAmount := by
  cases e <;> simp [bstep]

theorem brun_fields : ∀ (es : List BEvent) (c : ClientState),
    (brun c es).1.readyState = c.readyState ∧
    (brun c es).1.bufferedAmount = c.bufferedAmount := by
  intro es
  induction es with
  | nil => intro c; simp [brun]
  | cons e es ih =>
    intro c
    have h1 := bstep_fields c e
    have h2 := ih (bstep c e).1
    simp only [brun]
    exact ⟨h2.1.trans h1.1, h2.2.trans h1.2⟩

/-- A step whose event is not a subscribe for `sid` keeps the client
unsubscribed from `sid`. -/
theorem bstep_not_subscribed (c : ClientState) (e : BEvent) (sid : String)
    (hsub : sid ∉ c.subscriptions) (he : e.isSubscribeFor sid = false) :
    sid ∉ (bstep c e).1.subscriptions := by
  cases e with
  | subscribe s cols rows sb =>
    have hne : s ≠ sid := by
      simpa [BEvent.isSubscribeFor] using he
    simp only [bstep, List.mem_cons]
    rintro (rfl | h)
    · exact hne rfl
    · exact hsub h
  | flushOutput s data => simpa [bstep] using hsub

theorem brun_not_subscribed : ∀ (es : List BEvent) (c : ClientState) (sid : String),
    sid ∉ c.subscriptions → (∀ e ∈ es, e.isSubscribeFor sid = false) →
    sid ∉ (brun c es).1.subscriptions := by
  intro es
  induction es with
  | nil => intro c sid hsub _; simpa [brun] using hsub
  | cons e es ih =>
    intro c sid hsub hes
    simp only [brun]
    exact ih (bstep c e).1 sid
      (bstep_not_subscribed c e sid hsub (hes e (List.mem_cons_self _ _)))
      (fun x hx => hes x (List.mem_cons_of_mem e hx))

/-- While the client is not subscribed to `sid` and no event subscribes it,
no `output` or `scrollback` frame for `sid` is delivered. -/
theorem brun_no_frames_unsubscribed :
    ∀ (es : List BEvent) (c : ClientState) (sid : String),
    sid ∉ c.subscriptions → (∀ e ∈ es, e.isSubscribeFor sid = false) →
    ∀ a ∈ (brun c es).2, a.isOutputFor sid = false ∧ a.isScrollbackFor sid = false := by
  intro es
  induction es with
  | nil => intro c sid _ _ a ha; simp [brun] at ha
  | cons e es ih =>
    intro c sid hsub hes a ha
    simp only [brun, List.mem_append] at ha
    rcases ha with ha | ha
    · cases e with
      | subscribe s cols rows sb =>
        have hne : s ≠ sid := by
          simpa [BEvent.isSubscribeFor] using hes _ (List.mem_cons_self _ _)
        simp only [bstep] at ha
        rcases List.mem_append.mp ha with h | h
        · rcases List.mem_ite_nil_right.mp h with ⟨-, h2⟩
          rw [List.mem_singleton] at h2
          subst h2
          simp [BridgeAction.isOutputFor, BridgeAction.isScrollbackFor]
        · rcases List.mem_ite_nil_right.mp h with ⟨-, h2⟩
          rw [List.mem_singleton] at h2
          subst h2
          simp [BridgeAction.isOutputFor, BridgeAction.isScrollbackFor, hne]
      | flushOutput s data =>
        simp only [bstep] at ha
        rcases List.mem_ite_nil_right.mp ha with ⟨⟨hmem, -⟩, h2⟩
        rw [List.mem_singleton] at h2
        subst h2
        have hne : s ≠ sid := by
          rintro rfl
          exact hsub (by simpa using hmem)
        simp [BridgeAction.isOutputFor, BridgeAction.isScrollbackFor, hne]
    · exact ih (bstep c e).1 sid
        (bstep_not_subscribed c e sid hsub (hes e (List.mem_cons_self _ _)))
        (fun x hx => hes x (List.mem_cons_of_mem e hx)) a ha

/-- Events that never subscribe `sid` never deliver a `scrollback` frame
for `sid`. -/
theorem brun_no_scrollback : ∀ (es : List BEvent) (c : ClientState) (sid : String),
    (∀ e ∈ es, e.isSubscribeFor sid = false) →
    ∀ a ∈ (brun c es).2, a.isScrollbackFor sid = false := by
  intro es
  induction es with
  | nil => intro c sid _ a ha; simp [brun] at ha
  | cons e es ih =>
    intro c sid hes a ha
    simp only [brun, List.mem_append] at ha
    rcases ha with ha | ha
    · cases e with
      | subscribe s cols rows sb =>
        have hne : s ≠ sid := by
          simpa [BEvent.isSubscribeFor] using hes _ (List.mem_cons_self _ _)
        simp only [bstep] at ha
        rcases List.mem_append.mp ha with h | h
        · rcases List.mem_ite_nil_right.mp h with ⟨-, h2⟩
          rw [List.mem_singleton] at h2
          subst h2
          simp [BridgeAction.isScrollbackFor]
        · rcases List.mem_ite_nil_right.mp h with ⟨-, h2⟩
          rw [List.mem_singleton] at h2
          subst h2
          simp [BridgeAction.isScrollbackFor, hne]
      | flushOutput s data =>
        simp only [bstep] at ha
        rcases List.mem_ite_nil_right.mp ha with ⟨-, h2⟩
        rw [List.mem_singleton] at h2
        subst h2
        simp [BridgeAction.isScrollbackFor]
    · exact ih (bstep c e).1 sid (fun x hx => hes x (List.mem_cons_of_mem e hx)) a ha

theorem brun_cons (c : ClientState) (e : BEvent) (es : List BEvent) :
    brun c (e :: es) =
      ((brun (bstep c e).1 es).1, (bstep c e).2 ++ (brun (bstep c e).1 es).2) := rfl

theorem brun_append : ∀ (es1 es2 : List BEvent) (c : ClientState),
    brun c (es1 ++ es2) =
      ((brun (brun c es1).1 es2).1, (brun c es1).2 ++ (brun (brun c es1).1 es2).2) := by
  intro es1
  induction es1 with
  | nil => intro es2 c; simp [brun]
  | cons e es ih =>
    intro es2 c
    rw [List.cons_append, brun_cons, brun_cons, ih]
    simp [List.append_assoc]

/-- C6 counterexample: a subscribe carrying dimensions on a session whose
scrollback is empty applies the resize but delivers NO scrollback frame —
against the claim's "delivers exactly one scrollback frame containing the
concatenated current scrollback". -/
theorem claim_C6_counterexample :
    (brun client0 [.subscribe "s" 80 24 []]).2 = [.resize "s" 80 24] ∧
    ((brun client0 [.subscribe "s" 80 24 []]).2.filter
        (fun a => a.isScrollbackFor "s")).length = 0 := by
  constructor
  · rfl
  · rfl

/-- C6 (amended): for a subscribe with nonzero dimensions on an open,
non-backpressured client and a NONEMPTY scrollback, the bridge applies the
resize first, then delivers exactly one scrollback frame with the
concatenated scrollback, and no output frame for that session reaches the
client before the scrollback frame (frames only flow after the subscription
is recorded, in the same atomic step as the snapshot).  With an empty
scrollback no scrollback frame is delivered. -/
theorem claim_C6_amended (c : ClientState) (pre post : List BEvent) (sid : String)
    (cols rows : Nat) (sb : List String)
    (hopen : c.readyState = WS_OPEN)
    (hbuf : c.bufferedAmount ≤ MAX_WS_BUFFER_BYTES)
    (hsub : sid ∉ c.subscriptions)
    (hpre : ∀ e ∈ pre, e.isSubscribeFor sid = false)
    (hpost : ∀ e ∈ post, e.isSubscribeFor sid = false)
    (hsb : sb ≠ []) :
    ∃ A B : List BridgeAction,
      (brun c (pre ++ .subscribe sid cols rows sb :: post)).2 =
        A ++ ((if cols ≠ 0 ∧ rows ≠ 0 then [BridgeAction.resize sid cols rows] else []) ++
          (BridgeAction.deliver (.scrollback sid (String.join sb)) :: B)) ∧
      (∀ a ∈ A, a.isOutputFor sid = false ∧ a.isScrollbackFor sid = false) ∧
      (∀ a ∈ B, a.isScrollbackFor sid = false) := by
  have hprefld := brun_fields pre c
  set c1 := (brun c pre).1 with hc1
  have hsend : wsCanSendData { c1 with subscriptions := sid :: c1.subscriptions } = true := by
    simp [wsCanSendData, hprefld.1, hprefld.2, hopen]
    omega
  have hfa : (if 0 < sb.length ∧
        wsCanSendData { c1 with subscriptions := sid :: c1.subscriptions } = true
      then [BridgeAction.deliver (.scrollback sid (String.join sb))] else []) =
      [BridgeAction.deliver (.scrollback sid (String.join sb))] :=
    if_pos ⟨List.length_pos.mpr hsb, hsend⟩
  have hstep : bstep c1 (.subscribe sid cols rows sb) =
      ({ c1 with subscriptions := sid :: c1.subscriptions },
       (if cols ≠ 0 ∧ rows ≠ 0 then [BridgeAction.resize sid cols rows] else []) ++
         [.deliver (.scrollback sid (String.join sb))]) := by
    simp only [bstep]
    rw [hfa]
  refine ⟨(brun c pre).2,
          (brun { c1 with subscriptions := sid :: c1.subscriptions } post).2, ?_, ?_, ?_⟩
  · rw [brun_append, ← hc1, brun_cons, hstep]
    simp [List.append_assoc]
  · exact brun_no_frames_unsubscribed pre c sid hsub hpre
  · exact brun_no_scrollback post _ sid hpost

/-- C6 amended witness: a concrete run — an output flush for the session
before the client subscribes yields nothing; the subscribe resizes then
delivers the single scrollback frame; a later flush may follow it. -/
theorem claim_C6_amended_witness :
    ∃ A B : List BridgeAction,
      (brun client0
        ([.flushOutput "s" "early"] ++
          .subscribe "s" 80 24 ["he", "llo"] :: [.flushOutput "s" "later"])).2 =
        A ++ ((if (80 : Nat) ≠ 0 ∧ (24 : Nat) ≠ 0 then
                 [BridgeAction.resize "s" 80 24] else []) ++
          (BridgeAction.deliver (.scrollback "s" (String.join ["he", "llo"])) :: B)) ∧
      (∀ a ∈ A, a.isOutputFor "s" = false ∧ a.isScrollbackFor "s" = false) ∧
      (∀ a ∈ B, a.isScrollbackFor "s" = false) :=
  claim_C6_amended client0 [.flushOutput "s" "early"] [.flushOutput "s" "later"]
    "s" 80 24 ["he", "llo"] rfl (by decide) (by decide) (by decide) (by decide)
    (by decide)

/-! ### C8: auto-naming -/

theorem autoNamesGo_eq (ops : List SupOp) : ∀ ctr : Nat,
    autoNamesGo ctr ops = (List.range' (ctr + 1) (countAuto ops)).map spawnAutoName := by
  induction ops with
  | nil => intro ctr; simp [autoNamesGo, countAuto]
  | cons op rest ih =>
    intro ctr
    cases op with
    | spawnAuto =>
      have hcount : countAuto (SupOp.spawnAuto :: rest) = countAuto rest + 1 := by
        simp [countAuto]
      rw [show autoNamesGo ctr (SupOp.spawnAuto :: rest) =
            spawnAutoName (ctr + 1) :: autoNamesGo (ctr + 1) rest from rfl,
          hcount, ih (ctr + 1), List.range'_succ, List.map_cons]
    | spawnNamed n =>
      rw [show autoNamesGo ctr (SupOp.spawnNamed n :: rest) = autoNamesGo ctr rest from rfl,
          ih ctr]
      congr 2
    | other =>
      rw [show autoNamesGo ctr (SupOp.other :: rest) = autoNamesGo ctr rest from rfl,
          ih ctr]
      congr 2

/-- C8: across the life of a fresh supervisor, the auto-generated names of
the N spawns that omit the name option are exactly
`(Claude, Claude 2, …, Claude N)`, regardless of named spawns, kills or
exits interleaved between them — the counter is monotonic and never reused.
(The hypothesis `hfit` records that each name fits the 200-character
truncation `spawn` applies, true for every counter value below `10^193`.) -/
theorem claim_C8 (ops : List SupOp) (N : Nat) (hN : countAuto ops = N)
    (hfit : ∀ k, k ≤ N → 1 ≤ k → (autoNameFor k).length ≤ 200) :
    autoNames ops = (List.range N).map
      (fun i => if i + 1 = 1 then "Claude".data
                else "Claude ".data ++ (Nat.repr (i + 1)).data) := by
  rw [autoNames, autoNamesGo_eq, hN, List.range'_eq_map_range, List.map_map]
  apply List.map_congr_left
  intro i hi
  have hiN : i < N := List.mem_range.mp hi
  have h1 : spawnAutoName (0 + 1 + i) = autoNameFor (i + 1) := by
    rw [spawnAutoName, show 0 + 1 + i = i + 1 by omega]
    exact List.take_of_length_le (hfit (i + 1) (by omega) (by omega))
  simp only [Function.comp_apply]
  rw [show spawnAutoName (0 + 1 + i) = autoNameFor (i + 1) from h1]
  simp only [autoNameFor]

/-- C8 witness: three auto-named spawns with a kill-like operation and a
named spawn interleaved yield `Claude`, `Claude 2`, `Claude 3`. -/
theorem claim_C8_witness :
    autoNames [.spawnAuto, .other, .spawnAuto, .spawnNamed "x".data, .spawnAuto] =
      ["Claude".data, "Claude 2".data, "Claude 3".data] := by
  have h := claim_C8 [.spawnAuto, .other, .spawnAuto, .spawnNamed "x".data, .spawnAuto]
    3 (by decide) (by decide)
  rw [h]
  decide

/-! ### C1/C7: state-detector lemmas -/

theorem bestStep_snd_le (w : List Char) (acc : Option DetailedState × Int)
    (g : PatternGroup) : acc.2 ≤ (bestStep w acc g).2 := by
  unfold bestStep
  split
  · next h => exact le_of_lt h
  · exact le_refl _

theorem bestFold_mono (w : List Char) (gs : List PatternGroup) :
    ∀ acc, acc.2 ≤ (gs.foldl (bestStep w) acc).2 := by
  induction gs with
  | nil => intro acc; simp
  | cons g gs ih =>
    intro acc
    rw [List.foldl_cons]
    exact le_trans (bestStep_snd_le w acc g) (ih (bestStep w acc g))

theorem bestFold_ub (w : List Char) (gs : List PatternGroup) :
    ∀ acc, ∀ g ∈ gs, groupLastIndex g w ≤ (gs.foldl (bestStep w) acc).2 := by
  induction gs with
  | nil => intro acc g hg; simp at hg
  | cons g0 gs ih =>
    intro acc g hg
    rw [List.foldl_cons]
    rcases List.mem_cons.mp hg with rfl | hg
    · refine le_trans ?_ (bestFold_mono w gs (bestStep w acc g))
      unfold bestStep
      split
      · exact le_refl _
      · next h => omega
    · exact ih (bestStep w acc g0) g hg

theorem bestFold_attained (w : List Char) (gs : List PatternGroup) :
    ∀ acc, gs.foldl (bestStep w) acc = acc ∨
      ∃ g ∈ gs, (gs.foldl (bestStep w) acc).1 = some g.state ∧
        (gs.foldl (bestStep w) acc).2 = groupLastIndex g w ∧
        acc.2 < (gs.foldl (bestStep w) acc).2 := by
  induction gs with
  | nil => intro acc; left; rfl
  | cons g0 gs ih =>
    intro acc
    rw [List.foldl_cons]
    by_cases hlt : acc.2 < groupLastIndex g0 w
    · have hstep : bestStep w acc g0 = (some g0.state, groupLastIndex g0 w) := by
        unfold bestStep
        rw [if_pos hlt]
      rw [hstep]
      rcases ih (some g0.state, groupLastIndex g0 w) with heq | ⟨g, hg, h1, h2, h3⟩
      · right
        rw [heq]
        exact ⟨g0, List.mem_cons_self _ _, rfl, rfl, hlt⟩
      · right
        refine ⟨g, List.mem_cons_of_mem g0 hg, h1, h2, ?_⟩
        have h3b : groupLastIndex g0 w <
            (gs.foldl (bestStep w) (some g0.state, groupLastIndex g0 w)).2 := h3
        omega
    · have hstep : bestStep w acc g0 = acc := by
        unfold bestStep
        rw [if_neg hlt]
      rw [hstep]
      rcases ih acc with heq | ⟨g, hg, h1, h2, h3⟩
      · left
        exact heq
      · right
        exact ⟨g, List.mem_cons_of_mem g0 hg, h1, h2, h3⟩

/-- C1: every chunk fed to the detector appends the control-stripped text to
the rolling window, bounded to the most recent 2048 characters (the window is
the suffix of the previous window plus stripped text, of length
`min length 2048`); all pattern groups are evaluated against the window and
the session moves to the state of a group achieving the maximal latest-match
position (the start index of the final `exec` match); if no group matches,
`starting` stays `starting` and anything else falls to `working`.  In
particular a window holding the spinner glyph and a later `❯` prompt at the
window end classifies as `idle`. -/
theorem claim_C1 (ss : DetState) (raw : List Char) :
    ((detFeed ss raw).window.length =
        min (ss.window ++ stripAnsi raw).length WINDOW_SIZE ∧
      (detFeed ss raw).window <:+ (ss.window ++ stripAnsi raw)) ∧
    ((∃ g ∈ PATTERNS, 0 ≤ groupLastIndex g (detFeed ss raw).window) →
      ∃ g ∈ PATTERNS, (detFeed ss raw).state = g.state ∧
        ∀ g2 ∈ PATTERNS,
          groupLastIndex g2 (detFeed ss raw).window ≤
            groupLastIndex g (detFeed ss raw).window) ∧
    ((∀ g ∈ PATTERNS, groupLastIndex g (detFeed ss raw).window < 0) →
      (detFeed ss raw).state =
        (if ss.state = .starting then DetailedState.starting else .working)) ∧
    (detFeed initDetState "✻ Working...\n❯ ".data).state = .idle := by
  have hw : (detFeed ss raw).window =
      takeLast WINDOW_SIZE (ss.window ++ stripAnsi raw) := by
    simp only [detFeed]
  have hst : (detFeed ss raw).state =
      nextState ss.state (pickBest (takeLast WINDOW_SIZE (ss.window ++ stripAnsi raw))).1 := by
    simp only [detFeed]
  refine ⟨⟨?_, ?_⟩, ?_, ?_, by decide⟩
  · rw [hw]
    unfold takeLast
    rw [List.length_drop]
    omega
  · rw [hw]
    exact List.drop_suffix _ _
  · rintro ⟨g, hg, hge⟩
    rw [hw] at hge ⊢
    set w := takeLast WINDOW_SIZE (ss.window ++ stripAnsi raw) with hwdef
    have hub := bestFold_ub w PATTERNS (none, -1) g hg
    rcases bestFold_attained w PATTERNS (none, -1) with heq | ⟨g2, hg2, h1, h2, h3⟩
    · exfalso
      have : (PATTERNS.foldl (bestStep w) ((none : Option DetailedState), (-1 : Int))).2 =
          -1 := by rw [heq]
      omega
    · refine ⟨g2, hg2, ?_, ?_⟩
      · rw [hst]
        have hp1 : (pickBest w).1 = some g2.state := h1
        rw [hp1]
        rfl
      · intro g3 hg3
        have := bestFold_ub w PATTERNS (none, -1) g3 hg3
        rw [← h2]
        exact this
  · intro hall
    rw [hw] at hall
    set w := takeLast WINDOW_SIZE (ss.window ++ stripAnsi raw) with hwdef
    rcases bestFold_attained w PATTERNS (none, -1) with heq | ⟨g2, hg2, h1, h2, h3⟩
    · rw [hst]
      have hp1 : (pickBest w).1 = none := by rw [pickBest, heq]
      rw [hp1]
      rfl
    · exfalso
      have hlt := hall g2 hg2
      simp only at h3
      omega

/-- C1 witness: a `❯ `-terminated chunk drives a `working` session to the
state of the group with the maximal latest match, namely `idle`. -/
theorem claim_C1_witness :
    ∃ g ∈ PATTERNS,
      (detFeed ⟨[], .working⟩ "❯ ".data).state = g.state ∧
      ∀ g2 ∈ PATTERNS,
        groupLastIndex g2 (detFeed ⟨[], .working⟩ "❯ ".data).window ≤
          groupLastIndex g (detFeed ⟨[], .working⟩ "❯ ".data).window :=
  (claim_C1 ⟨[], .working⟩ "❯ ".data).2.1 (by decide)

/-- C7: the line-anchored error pattern matches only at a line start (position
0 or right after a line terminator) and only where the text `Error:` begins;
feeding a chunk whose only `Error:` occurrence is mid-line to a `working`
session leaves it in `working` — the error group does not match at all. -/
theorem claim_C7 :
    (∀ (w : List Char) (i e : Nat), e ∈ RE.ends errorLineRE w i →
      (i = 0 ∨ ∃ c, w.get? (i - 1) = some c ∧ isLineTerm c = true) ∧
      "Error:".data <+: w.drop i) ∧
    (detFeed ⟨[], .working⟩ "  console.log(\"Error: oops\")".data).state = .working ∧
    groupLastIndex ⟨.error, errorREs⟩ "  console.log(\"Error: oops\")".data = -1 := by
  refine ⟨?_, by decide, by decide⟩
  intro w i e he
  rw [show RE.ends errorLineRE w i =
      (RE.ends .bol w i).flatMap (fun j => RE.ends (.lit "Error:".data) w j) from rfl] at he
  rcases List.mem_flatMap.mp he with ⟨j, hj, he2⟩
  have hbol : (i = 0 ∨ ∃ c, w.get? (i - 1) = some c ∧ isLineTerm c = true) ∧ j = i := by
    by_cases h0 : i = 0
    · have hj2 : j ∈ [i] := by
        simpa only [RE.ends, if_pos h0] using hj
      exact ⟨Or.inl h0, List.mem_singleton.mp hj2⟩
    · cases hg : w.get? (i - 1) with
      | none =>
        exfalso
        have hj2 : j ∈ ([] : List Nat) := by
          have hj3 := hj
          simp only [RE.ends, if_neg h0, hg] at hj3
          exact hj3
        simp at hj2
      | some c =>
        by_cases hl : isLineTerm c = true
        · have hj2 : j ∈ [i] := by
            have hj3 := hj
            simp only [RE.ends, if_neg h0, hg, if_pos hl] at hj3
            exact hj3
          exact ⟨Or.inr ⟨c, rfl, hl⟩, List.mem_singleton.mp hj2⟩
        · exfalso
          have hj2 : j ∈ ([] : List Nat) := by
            have hj3 := hj
            simp only [RE.ends, if_neg h0, hg, if_neg hl] at hj3
            exact hj3
          simp at hj2
  obtain ⟨hcond, hji⟩ := hbol
  rw [hji] at he2
  refine ⟨hcond, ?_⟩
  by_cases hp : ("Error:".data).isPrefixOf (w.drop i) = true
  · exact List.isPrefixOf_iff_prefix.mp hp
  · exfalso
    have he3 : e ∈ ([] : List Nat) := by
      simpa only [RE.ends, if_neg hp] using he2
    simp at he3

/-- C7 witness: at position 1 of `"\nError: x"` (right after a newline) the
anchored pattern matches and the conclusion holds there. -/
theorem claim_C7_witness :
    ((1 : Nat) = 0 ∨ ∃ c, ("\nError: x".data).get? 0 = some c ∧ isLineTerm c = true) ∧
    "Error:".data <+: ("\nError: x".data).drop 1 :=
  claim_C7.1 "\nError: x".data 1 7 (by decide)

end BB

